import Mathlib

/- Formal model of the DQN training engine in DQN.py: the bounded experience
   replay buffer, action selection, the Bellman-target update loop, epsilon
   annealing, and the train/save/load lifecycle.  Floating-point values are
   modelled as real (or generically as linear-ordered-field) values; external
   randomness (numpy draws) is modelled by explicitly passed draw functions,
   and the function approximator built by the external `nn.create_mlp` is an
   abstract weight type `W` together with an evaluation function. -/

set_option linter.unusedVariables false

/-- Errors surfaced by the Python runtime at the modelled call sites
    (numpy sampling, modulo by zero, list indexing, tuple unpacking,
    deque construction, file access). -/
inductive DQNError : Type where
  | insufficientData : DQNError
  | zeroDivision : DQNError
  | indexError : DQNError
  | unpackError : DQNError
  | valueError : DQNError
  | fileNotFound : DQNError
  deriving DecidableEq

/-- A transition record, mirroring
    Experience = namedtuple(state, action, reward, done, new_state)
    (DQN.py line 27). -/
structure Experience (σ : Type) (α : Type) where
  state : σ
  action : Nat
  reward : α
  done : Bool
  newState : σ
  deriving DecidableEq

variable {E : Type} {σ : Type} {α : Type} {W : Type}

/-- collections.deque(maxlen = cap).append e: the new element goes to the
    right and, when the deque is full, the leftmost (oldest) element is
    dropped; with maxlen = 0 the deque always stays empty. -/
def dequeAppend (cap : Nat) (buf : List E) (e : E) : List E :=
  (buf ++ [e]).drop (buf.length + 1 - cap)

/-- ExperienceReplay (DQN.py lines 31-85): a bounded buffer of records,
    backed by a deque with maxlen = capacity. -/
structure ExperienceReplay (E : Type) where
  capacity : Nat
  buffer : List E
  deriving DecidableEq

/-- ExperienceReplay.__init__ (line 41): an empty deque with the given
    maxlen. -/
def ExperienceReplay.init (capacity : Nat) : ExperienceReplay E :=
  ⟨capacity, []⟩

/-- ExperienceReplay.append (line 59): self.buffer.append(experience). -/
def ExperienceReplay.append (rep : ExperienceReplay E) (e : E) :
    ExperienceReplay E :=
  { rep with buffer := dequeAppend rep.capacity rep.buffer e }

/-- ExperienceReplay.__len__ (line 50). -/
def ExperienceReplay.len (rep : ExperienceReplay E) : Nat :=
  rep.buffer.length

lemma dequeAppend_length (cap : Nat) (buf : List E) (e : E) :
    (dequeAppend cap buf e).length = min (buf.length + 1) cap := by
  simp [dequeAppend]
  omega

/-- Folding deque appends keeps only the most recent `cap` elements. -/
lemma foldl_dequeAppend (cap : Nat) :
    ∀ (es : List E) (b : List E), b.length ≤ cap →
      es.foldl (dequeAppend cap) b
        = (b ++ es).drop (b.length + es.length - cap) := by
  intro es
  induction es with
  | nil =>
      intro b hb
      have h0 : b.length - cap = 0 := by omega
      simp [h0]
  | cons e es ih =>
      intro b hb
      have hb' : (dequeAppend cap b e).length ≤ cap := by
        rw [dequeAppend_length]; omega
      rw [List.foldl_cons, ih _ hb']
      have hd : b.length + 1 - cap ≤ (b ++ [e]).length := by
        simp
      have hsplit : (dequeAppend cap b e) ++ es
          = ((b ++ [e]) ++ es).drop (b.length + 1 - cap) := by
        rw [dequeAppend]
        rw [List.drop_append_of_le_length hd]
      rw [hsplit, List.drop_drop]
      have hassoc : (b ++ [e]) ++ es = b ++ (e :: es) := by simp
      rw [hassoc]
      congr 1
      rw [dequeAppend_length]
      simp only [List.length_cons]
      omega

/-- Folding ExperienceReplay.append is folding dequeAppend on the buffer,
    with the capacity unchanged. -/
lemma foldl_replay_append (cap : Nat) (b : List E) (es : List E) :
    es.foldl ExperienceReplay.append ⟨cap, b⟩
      = ⟨cap, es.foldl (dequeAppend cap) b⟩ := by
  induction es generalizing b with
  | nil => rfl
  | cons e es ih =>
      have step : (e :: es).foldl ExperienceReplay.append
            (⟨cap, b⟩ : ExperienceReplay E)
          = es.foldl ExperienceReplay.append ⟨cap, dequeAppend cap b e⟩ := rfl
      rw [step, ih, List.foldl_cons]

/-- Claim C2: for every sequence of append calls to an ExperienceReplay of
    capacity C ≥ 1 — including sequences longer than C — the buffer's length
    never exceeds C, and after the sequence its contents are exactly the last
    min(n, C) appended records in insertion order (oldest evicted first). -/
theorem replay_capacity_fifo (C : Nat) (hC : 1 ≤ C) (es : List E) :
    (es.foldl ExperienceReplay.append (ExperienceReplay.init C)).buffer
        = es.drop (es.length - C) ∧
    (es.foldl ExperienceReplay.append (ExperienceReplay.init C)).buffer.length
        = min es.length C ∧
    ∀ k : Nat,
      ((es.take k).foldl ExperienceReplay.append
          (ExperienceReplay.init C)).buffer.length ≤ C := by
  have key : ∀ l : List E,
      (l.foldl ExperienceReplay.append (ExperienceReplay.init C)).buffer
        = l.drop (l.length - C) := by
    intro l
    rw [ExperienceReplay.init, foldl_replay_append]
    have h := foldl_dequeAppend (E := E) C l [] (by simp)
    simpa using h
  refine ⟨key es, ?_, ?_⟩
  · rw [key es]
    simp
    omega
  · intro k
    rw [key (es.take k)]
    simp
    omega

/-- Witness for C2, following the spec's own end-to-end scenario: capacity 3,
    four records appended, the oldest evicted. -/
theorem replay_capacity_fifo_witness :
    (([10, 20, 30, 40] : List Nat).foldl ExperienceReplay.append
        (ExperienceReplay.init 3)).buffer = [20, 30, 40] := by
  have h := replay_capacity_fifo 3 (by decide) ([10, 20, 30, 40] : List Nat)
  simpa using h.1

/-- np.random.choice(n, k, replace=False) (DQN.py line 79): raises a
    ValueError — the spec's InsufficientDataError — when k > n; otherwise it
    draws k distinct indices below n.  The draw itself is external
    randomness, modelled by the `choice` argument; the distinctness and
    range guarantees numpy documents for replace=False are the
    ChoiceContract hypothesis below. -/
def npChoiceNoReplace (choice : Nat → Nat → List Nat) (n k : Nat) :
    Except DQNError (List Nat) :=
  if n < k then .error .insufficientData else .ok (choice n k)

/-- The contract numpy documents for a replace=False draw of k out of n:
    k indices, pairwise distinct, each below n. -/
def ChoiceContract (choice : Nat → Nat → List Nat) : Prop :=
  ∀ n k, k ≤ n →
    (choice n k).length = k ∧ (choice n k).Nodup ∧ ∀ i ∈ choice n k, i < n

/-- Python list indexing self.buffer[idx]: IndexError when out of range. -/
def listGetE (l : List E) (i : Nat) : Except DQNError E :=
  match l.get? i with
  | some x => .ok x
  | none => .error .indexError

/-- The list comprehension [self.buffer[idx] for idx in indices]
    (DQN.py line 82). -/
def gatherE (l : List E) : List Nat → Except DQNError (List E)
  | [] => .ok []
  | i :: is =>
      match listGetE l i with
      | .error e => .error e
      | .ok x =>
          match gatherE l is with
          | .error e => .error e
          | .ok xs => .ok (x :: xs)

/-- ExperienceReplay.sample (DQN.py lines 67-85): draw batchSize distinct
    indices without replacement, gather the records, then unpack
    zip(*records) into the five parallel arrays — an unpacking that raises a
    ValueError when the gathered batch is empty, since zip() then yields
    nothing to unpack into the five names.  The buffer itself is never
    mutated, so it is returned unchanged alongside the records. -/
def ExperienceReplay.sample (rep : ExperienceReplay E) (batchSize : Nat)
    (choice : Nat → Nat → List Nat) :
    Except DQNError (List E × ExperienceReplay E) :=
  match npChoiceNoReplace choice rep.buffer.length batchSize with
  | .error e => .error e
  | .ok idxs =>
      match gatherE rep.buffer idxs with
      | .error e => .error e
      | .ok recs =>
          if recs.isEmpty then .error .unpackError
          else .ok (recs, rep)

/-- Gathering along in-range indices succeeds and returns exactly the
    records stored at those indices. -/
lemma gatherE_ok (l : List E) :
    ∀ idxs : List Nat, (∀ i ∈ idxs, i < l.length) →
      ∃ recs : List E, gatherE l idxs = .ok recs ∧
        recs.length = idxs.length ∧
        ∀ j : Nat, recs.get? j = (idxs.get? j).bind l.get? := by
  intro idxs
  induction idxs with
  | nil =>
      intro _
      exact ⟨[], rfl, rfl, fun j => by cases j <;> rfl⟩
  | cons i is ih =>
      intro h
      have hi : i < l.length := h i (by simp)
      have hx : l.get? i = some (l.get ⟨i, hi⟩) := List.get?_eq_get hi
      have h1 : listGetE l i = .ok (l.get ⟨i, hi⟩) := by
        simp only [listGetE, hx]
      obtain ⟨recs, hrecs, hlen, hget⟩ := ih (fun j hj => h j (by simp [hj]))
      refine ⟨l.get ⟨i, hi⟩ :: recs, ?_, by simp [hlen], ?_⟩
      · simp only [gatherE, h1, hrecs]
      · intro j
        cases j with
        | zero => simp [hx.symm]
        | succ j => simpa using hget j

/-- A concrete draw function satisfying numpy's replace=False contract:
    take the first k indices. -/
lemma rangeTake_contract : ChoiceContract (fun n k => (List.range n).take k) := by
  intro n k hk
  refine ⟨?_, ?_, ?_⟩
  · simp only [List.length_take, List.length_range]
    omega
  · exact List.Nodup.sublist (List.take_sublist _ _) (List.nodup_range n)
  · intro i hi
    exact List.mem_range.mp (List.mem_of_mem_take hi)

/-- Claim C3 counterexample: on a buffer of length 3 and batch size k = 0
    (so k ≤ length), sample does not return 0 records with the buffer
    unchanged: the unpacking of zip() over the empty gathered batch raises,
    because there are no values to unpack into the five array names
    (DQN.py lines 81-82). -/
theorem sample_batch_zero_counterexample :
    (ExperienceReplay.mk 3 ([10, 20, 30] : List Nat)).sample 0
        (fun n k => (List.range n).take k)
      = .error .unpackError := by
  rfl

/-- Claim C3 (amended): for every draw satisfying numpy's replace=False
    contract, sample(k) with 1 ≤ k ≤ len returns exactly k records drawn at
    k pairwise-distinct in-range indices and leaves the buffer unchanged;
    sample(0) fails with the tuple-unpacking ValueError; and sample(k) with
    k > len fails with the InsufficientDataError. -/
theorem sample_spec_amended (rep : ExperienceReplay E) (batchSize : Nat)
    (choice : Nat → Nat → List Nat) (hc : ChoiceContract choice) :
    (1 ≤ batchSize → batchSize ≤ rep.buffer.length →
      ∃ recs : List E,
        rep.sample batchSize choice = .ok (recs, rep) ∧
        recs.length = batchSize ∧
        (choice rep.buffer.length batchSize).Nodup ∧
        (choice rep.buffer.length batchSize).length = batchSize ∧
        ∀ j : Nat, recs.get? j
          = ((choice rep.buffer.length batchSize).get? j).bind rep.buffer.get?) ∧
    (batchSize = 0 → rep.sample batchSize choice = .error .unpackError) ∧
    (rep.buffer.length < batchSize →
      rep.sample batchSize choice = .error .insufficientData) := by
  refine ⟨?_, ?_, ?_⟩
  · intro h1 hk
    obtain ⟨hlen, hnd, hrange⟩ := hc rep.buffer.length batchSize hk
    obtain ⟨recs, hrecs, hrlen, hrget⟩ := gatherE_ok rep.buffer _ hrange
    have hne : recs.isEmpty = false := by
      cases recs with
      | nil =>
          rw [hlen] at hrlen
          simp only [List.length_nil] at hrlen
          omega
      | cons a as => rfl
    have hch : npChoiceNoReplace choice rep.buffer.length batchSize
        = .ok (choice rep.buffer.length batchSize) := by
      rw [npChoiceNoReplace, if_neg (Nat.not_lt.mpr hk)]
    refine ⟨recs, ?_, by omega, hnd, hlen, hrget⟩
    simp only [ExperienceReplay.sample, hch, hrecs, hne]
    rfl
  · intro h0
    subst h0
    obtain ⟨hlen, hnd, hrange⟩ := hc rep.buffer.length 0 (Nat.zero_le _)
    have hnil : choice rep.buffer.length 0 = [] := List.length_eq_zero.mp hlen
    have hch : npChoiceNoReplace choice rep.buffer.length 0 = .ok [] := by
      rw [npChoiceNoReplace, if_neg (by omega), hnil]
    simp only [ExperienceReplay.sample, hch]
    rfl
  · intro hk
    have hch : npChoiceNoReplace choice rep.buffer.length batchSize
        = .error .insufficientData := by
      rw [npChoiceNoReplace, if_pos hk]
    simp only [ExperienceReplay.sample, hch]

/-- Witness for the amended C3 at a concrete buffer and batch size 2. -/
theorem sample_spec_amended_witness :
    ∃ recs : List Nat,
      (ExperienceReplay.mk 3 ([10, 20, 30] : List Nat)).sample 2
          (fun n k => (List.range n).take k)
        = .ok (recs, ExperienceReplay.mk 3 [10, 20, 30]) ∧
      recs.length = 2 ∧
      ((List.range 3).take 2).Nodup ∧
      ((List.range 3).take 2).length = 2 ∧
      ∀ j : Nat, recs.get? j
        = (((List.range 3).take 2).get? j).bind ([10, 20, 30] : List Nat).get? :=
  (sample_spec_amended (ExperienceReplay.mk 3 ([10, 20, 30] : List Nat)) 2
      (fun n k => (List.range n).take k) rangeTake_contract).1
    (by decide) (by decide)

/-- tf.argmax on a 1-D tensor (DQN.py line 170): the index of the maximum
    entry, ties broken in favour of the lowest index; 0 on an empty list
    (unreachable: the network output has width dims[-1] ≥ 1). -/
def tfArgmax [LinearOrder α] : List α → Nat
  | [] => 0
  | x :: xs =>
      if x < xs.getD (tfArgmax xs) x then tfArgmax xs + 1 else 0

lemma tfArgmax_cons [LinearOrder α] (x : α) (xs : List α) :
    tfArgmax (x :: xs)
      = if x < xs.getD (tfArgmax xs) x then tfArgmax xs + 1 else 0 := rfl

/-- tfArgmax returns an index holding the maximum value, and every entry
    strictly before that index is strictly below the maximum (so it is the
    lowest index attaining the maximum). -/
lemma tfArgmax_spec [LinearOrder α] :
    ∀ l : List α, l ≠ [] →
      ∃ m : α, l.get? (tfArgmax l) = some m ∧
        (∀ j a, l.get? j = some a → a ≤ m) ∧
        (∀ j a, j < tfArgmax l → l.get? j = some a → a < m) := by
  intro l
  induction l with
  | nil => intro h; exact absurd rfl h
  | cons x xs ih =>
      intro _
      cases xs with
      | nil =>
          have harg : tfArgmax [x] = 0 := by
            rw [tfArgmax_cons, List.getD_nil, if_neg (lt_irrefl x)]
          refine ⟨x, by rw [harg]; rfl, ?_, ?_⟩
          · intro j a hj
            cases j with
            | zero =>
                simp only [List.get?_cons_zero, Option.some.injEq] at hj
                exact le_of_eq hj.symm
            | succ j => simp at hj
          · intro j a hjlt hj
            rw [harg] at hjlt
            exact absurd hjlt (Nat.not_lt_zero j)
      | cons y ys =>
          obtain ⟨m, hm, hmax, hfirst⟩ := ih (by simp)
          have hgetd : (y :: ys).getD (tfArgmax (y :: ys)) x = m := by
            rw [List.getD_eq_getD_get?, hm]
            rfl
          by_cases hlt : x < m
          · have harg : tfArgmax (x :: y :: ys) = tfArgmax (y :: ys) + 1 := by
              rw [tfArgmax_cons, hgetd, if_pos hlt]
            refine ⟨m, ?_, ?_, ?_⟩
            · rw [harg]
              simpa using hm
            · intro j a hj
              cases j with
              | zero =>
                  simp only [List.get?_cons_zero, Option.some.injEq] at hj
                  exact hj ▸ le_of_lt hlt
              | succ j =>
                  exact hmax j a (by simpa using hj)
            · intro j a hjlt hj
              rw [harg] at hjlt
              cases j with
              | zero =>
                  simp only [List.get?_cons_zero, Option.some.injEq] at hj
                  exact hj ▸ hlt
              | succ j =>
                  exact hfirst j a (by omega) (by simpa using hj)
          · have harg : tfArgmax (x :: y :: ys) = 0 := by
              rw [tfArgmax_cons, hgetd, if_neg hlt]
            refine ⟨x, by rw [harg]; rfl, ?_, ?_⟩
            · intro j a hj
              cases j with
              | zero =>
                  simp only [List.get?_cons_zero, Option.some.injEq] at hj
                  exact le_of_eq hj.symm
              | succ j =>
                  exact (hmax j a (by simpa using hj)).trans (not_lt.mp hlt)
            · intro j a hjlt hj
              rw [harg] at hjlt
              exact absurd hjlt (Nat.not_lt_zero j)

/-- DeepQNetwork.act (DQN.py lines 153-170): with probability epsilon — the
    uniform draw and the random action index are the external randomness,
    passed explicitly — return a random action (np.random.randint on
    [0, dims[-1])); otherwise, and always in evaluation mode, return the
    argmax of the online network's action-value row for the state. -/
def act [LinearOrder α] (qNet : W → List α → List α) (w : W)
    (epsilon draw : α) (randAction : Nat) (state : List α)
    (evaluation : Bool) : Nat :=
  if evaluation = false ∧ draw < epsilon then randAction
  else tfArgmax (qNet w state)

/-- Claim C6: act(state, evaluation=True) is deterministic — for fixed
    online parameters and state, two calls agree whatever epsilon and the
    random draws are — and the returned action is the lowest index attaining
    the maximum of the approximator's action-value vector. -/
theorem act_evaluation_deterministic [LinearOrder α]
    (qNet : W → List α → List α) (w : W) (state : List α)
    (hne : qNet w state ≠ []) :
    (∀ (e1 e2 d1 d2 : α) (r1 r2 : Nat),
        act qNet w e1 d1 r1 state true = act qNet w e2 d2 r2 state true) ∧
    (∀ (e d : α) (r : Nat),
        act qNet w e d r state true = tfArgmax (qNet w state)) ∧
    ∃ m : α,
      (qNet w state).get? (tfArgmax (qNet w state)) = some m ∧
      (∀ j a, (qNet w state).get? j = some a → a ≤ m) ∧
      (∀ j a, j < tfArgmax (qNet w state) →
        (qNet w state).get? j = some a → a < m) := by
  refine ⟨?_, ?_, tfArgmax_spec _ hne⟩
  · intro e1 e2 d1 d2 r1 r2
    rfl
  · intro e d r
    rfl

/-- Witness for C6 at a concrete two-action network over the rationals. -/
theorem act_evaluation_deterministic_witness :
    act (fun (_ : Unit) (_ : List ℚ) => [1, 3, 2]) () (1 : ℚ) (0 : ℚ) 7 [] true
      = act (fun (_ : Unit) (_ : List ℚ) => [1, 3, 2]) () (0 : ℚ) (5 : ℚ) 4 []
          true :=
  (act_evaluation_deterministic (fun (_ : Unit) (_ : List ℚ) => [1, 3, 2]) ()
      [] (by decide)).1 1 0 0 5 7 4

/-- tf.reduce_max along the last axis, applied to one action-value row
    (DQN.py lines 253-257).  The network output row always has width
    dims[-1] ≥ 1; the value on an empty row is unreachable junk. -/
def tfReduceMax [LinearOrderedField α] (l : List α) : α :=
  match l with
  | [] => 0
  | x :: xs => xs.foldl max x

/-- The bootstrap estimates: if self.use_target, reduce_max over the target
    network's outputs on the new states, else over the online network's
    (DQN.py lines 252-257). -/
def nextQBatch [LinearOrderedField α] (useTarget : Bool)
    (qOnline qTarget : σ → List α) (newStates : List σ) : List α :=
  if useTarget then newStates.map (fun s => tfReduceMax (qTarget s))
  else newStates.map (fun s => tfReduceMax (qOnline s))

/-- Elementwise np.where(conds, a, b). -/
def npWhere (conds : List Bool) (a b : List α) : List α :=
  match conds, a, b with
  | c :: cs, x :: xs, y :: ys => (if c then x else y) :: npWhere cs xs ys
  | _, _, _ => []

/-- The per-batch regression targets
    y = np.where(dones, rewards, rewards + gamma * next_Q)
    (DQN.py lines 259-260). -/
def bellmanY [LinearOrderedField α] (useTarget : Bool)
    (qOnline qTarget : σ → List α) (gamma : α)
    (batch : List (Experience σ α)) : List α :=
  npWhere (batch.map (fun t => t.done)) (batch.map (fun t => t.reward))
    (List.zipWith (fun r q => r + gamma * q) (batch.map (fun t => t.reward))
      (nextQBatch useTarget qOnline qTarget (batch.map (fun t => t.newState))))

lemma bellmanY_cons [LinearOrderedField α] (u : Bool) (qO qT : σ → List α)
    (g : α) (t : Experience σ α) (ts : List (Experience σ α)) :
    bellmanY u qO qT g (t :: ts)
      = (if t.done then t.reward
         else t.reward + g * tfReduceMax ((if u then qT else qO) t.newState))
        :: bellmanY u qO qT g ts := by
  cases u <;> simp [bellmanY, nextQBatch, npWhere]

/-- The regression target of the i-th sampled transition. -/
lemma bellmanY_get? [LinearOrderedField α] (u : Bool) (qO qT : σ → List α)
    (g : α) :
    ∀ (batch : List (Experience σ α)) (i : Nat) (t : Experience σ α),
      batch.get? i = some t →
      (bellmanY u qO qT g batch).get? i
        = some (if t.done then t.reward
            else t.reward
              + g * tfReduceMax ((if u then qT else qO) t.newState)) := by
  intro batch
  induction batch with
  | nil => intro i t h; simp at h
  | cons s ts ih =>
      intro i t h
      cases i with
      | zero =>
          simp only [List.get?_cons_zero, Option.some.injEq] at h
          subst h
          rw [bellmanY_cons]
          rfl
      | succ i =>
          rw [bellmanY_cons]
          simp only [List.get?_cons_succ] at h ⊢
          exact ih i t h

/-- Claim C1: inside _update_weights, the per-sample regression target y of
    a sampled transition equals the reward when done is true — independently
    of gamma, of the use_target flag and of the approximators — and equals
    reward + gamma * max over the bootstrap approximator's outputs on the
    next state when done is false, the bootstrap approximator being the
    target network if use_target and the online network otherwise. -/
theorem bellman_target_correct [LinearOrderedField α] (useTarget : Bool)
    (qOnline qTarget : σ → List α) (gamma : α)
    (batch : List (Experience σ α)) (i : Nat) (t : Experience σ α)
    (hi : batch.get? i = some t) :
    ((bellmanY useTarget qOnline qTarget gamma batch).get? i
        = some (if t.done then t.reward
            else t.reward
              + gamma * tfReduceMax
                  ((if useTarget then qTarget else qOnline) t.newState))) ∧
    (t.done = true →
      ∀ (u : Bool) (qO qT : σ → List α) (g : α),
        (bellmanY u qO qT g batch).get? i = some t.reward) := by
  refine ⟨bellmanY_get? useTarget qOnline qTarget gamma batch i t hi, ?_⟩
  intro hdone u qO qT g
  have h := bellmanY_get? u qO qT g batch i t hi
  rw [hdone] at h
  simpa using h

/-- Witness for C1 at the spec's worked example: gamma = 0.9, a non-terminal
    transition with reward 1 and bootstrap max-next-Q of 2 yields
    y = 1 + 0.9 * 2 = 2.8. -/
theorem bellman_target_correct_witness :
    (bellmanY false (fun (_ : Nat) => [(2 : ℚ)]) (fun _ => [(2 : ℚ)]) (9/10)
        [⟨0, 0, 5, true, 1⟩, ⟨1, 0, 1, false, 2⟩]).get? 1
      = some (14/5 : ℚ) := by
  have h := (bellman_target_correct false (fun (_ : Nat) => [(2 : ℚ)])
      (fun _ => [(2 : ℚ)]) (9/10)
      [⟨0, 0, 5, true, 1⟩, ⟨1, 0, 1, false, 2⟩] 1 ⟨1, 0, 1, false, 2⟩ rfl).1
  rw [h]
  norm_num [tfReduceMax]

/-- Python's % on integers: modulo by zero raises a ZeroDivisionError
    (relevant at DQN.py lines 244, 308 and 312). -/
def pymod (n m : Nat) : Except DQNError Nat :=
  if m = 0 then .error .zeroDivision else .ok (n % m)

/-- DQN.py lines 243-245: if self.use_target and updates % self.target_frequency
    == 0, copy the online weights into the target network
    (q_target.set_weights(q_net.get_weights())).  Python's `and`
    short-circuits, so the modulo is only evaluated when use_target holds.
    The state is the pair (online weights, target weights). -/
def targetSync (useTarget : Bool) (targetFrequency updates : Nat)
    (w : W × W) : Except DQNError (W × W) :=
  if useTarget then
    match pymod updates targetFrequency with
    | .error e => .error e
    | .ok r => if r = 0 then .ok (w.1, w.1) else .ok w
  else .ok w

/-- Q(s, a) of each sampled transition: the online network's row for the
    state, indexed at the sampled action (DQN.py lines 249-251); the default
    is junk for an out-of-range action index, which act never produces. -/
def thisQBatch [LinearOrderedField α] (qOnline : σ → List α)
    (batch : List (Experience σ α)) : List α :=
  batch.map (fun t => (qOnline t.state).getD t.action 0)

/-- tf.reduce_mean (DQN.py line 262); division by zero on an empty batch
    yields Lean's junk value 0, and sample already rules the empty batch
    out. -/
def listMean [LinearOrderedField α] (l : List α) : α :=
  l.sum / (l.length : α)

/-- One descent iteration of _update_weights (DQN.py lines 239-268): sample
    a batch, synchronize the target network when due, compute the Bellman
    mean-squared loss, and apply one optimizer step — the external
    approximator's gradient-descent capability, the abstract gradStep — to
    the online weights only.  Returns the new weight pair and the loss. -/
def updateIteration [LinearOrderedField α] (qEval : W → σ → List α)
    (gradStep : W → List (Experience σ α) → List α → W)
    (batchSize : Nat) (useTarget : Bool) (targetFrequency : Nat) (gamma : α)
    (choice : Nat → Nat → List Nat)
    (replay : ExperienceReplay (Experience σ α))
    (updates : Nat) (wl : (W × W) × α) : Except DQNError ((W × W) × α) :=
  match replay.sample batchSize choice with
  | .error e => .error e
  | .ok (batch, _) =>
      match targetSync useTarget targetFrequency updates wl.1 with
      | .error e => .error e
      | .ok w =>
          let y := bellmanY useTarget (qEval w.1) (qEval w.2) gamma batch
          let thisQ := thisQBatch (qEval w.1) batch
          let loss :=
            listMean (List.zipWith (fun a b => (a - b) * (a - b)) y thisQ)
          .ok ((gradStep w.1 batch y, w.2), loss)

/-- DeepQNetwork._update_weights (DQN.py lines 226-270): descent_frequency
    iterations, returning the loss of the last one.  Python's loss variable
    is undefined before the first iteration; the junk initial 0 models that.
    choices gives the numpy draw of each iteration. -/
def updateWeights [LinearOrderedField α] (qEval : W → σ → List α)
    (gradStep : W → List (Experience σ α) → List α → W)
    (batchSize : Nat) (useTarget : Bool) (targetFrequency : Nat) (gamma : α)
    (choices : Nat → Nat → Nat → List Nat)
    (replay : ExperienceReplay (Experience σ α))
    (descentFrequency : Nat) (w0 : W × W) :
    Except DQNError ((W × W) × α) :=
  (List.range descentFrequency).foldlM
    (fun wl u =>
      updateIteration qEval gradStep batchSize useTarget targetFrequency
        gamma (choices u) replay u wl)
    (w0, 0)

/-- A successful targetSync leaves the online weights alone and either
    leaves the target weights alone or copies the online weights over. -/
lemma targetSync_ok_cases (b : Bool) (tfreq u : Nat) (w w' : W × W)
    (h : targetSync b tfreq u w = .ok w') :
    w'.1 = w.1 ∧ (w'.2 = w.2 ∨ w'.2 = w.1) := by
  cases b with
  | false =>
      simp only [targetSync, Bool.false_eq_true, if_false,
        Except.ok.injEq] at h
      subst h
      exact ⟨rfl, Or.inl rfl⟩
  | true =>
      simp only [targetSync, if_true] at h
      cases hp : pymod u tfreq with
      | error e => rw [hp] at h; cases h
      | ok r =>
          rw [hp] at h
          dsimp only at h
          by_cases hr : r = 0
          · rw [if_pos hr] at h
            simp only [Except.ok.injEq] at h
            subst h
            exact ⟨rfl, Or.inr rfl⟩
          · rw [if_neg hr] at h
            simp only [Except.ok.injEq] at h
            subst h
            exact ⟨rfl, Or.inl rfl⟩

/-- Claim C5: target weights are only ever modified by copying the online
    weights — an update iteration either leaves them unchanged or replaces
    them with the incoming online weights, never with a gradient step — and
    immediately after the copy fires inside _update_weights, the target
    network's output on any state is identical to the online network's. -/
theorem target_snapshot_only [LinearOrderedField α] (tfreq updates : Nat)
    (w : W × W) (hm : updates % tfreq = 0) (htf : tfreq ≠ 0) :
    (targetSync true tfreq updates w = .ok (w.1, w.1) ∧
      ∀ (qEval : W → σ → List α) (s : σ),
        qEval (w.1, w.1).2 s = qEval (w.1, w.1).1 s) ∧
    (∀ (qEval : W → σ → List α)
        (gradStep : W → List (Experience σ α) → List α → W)
        (batchSize : Nat) (b : Bool) (tf2 : Nat) (g : α)
        (choice : Nat → Nat → List Nat)
        (rep : ExperienceReplay (Experience σ α)) (u : Nat)
        (wl wl' : (W × W) × α),
        updateIteration qEval gradStep batchSize b tf2 g choice rep u wl
          = .ok wl' →
        wl'.1.2 = wl.1.2 ∨ wl'.1.2 = wl.1.1) := by
  constructor
  · constructor
    · have hp : pymod updates tfreq = .ok 0 := by
        rw [pymod, if_neg htf, hm]
      simp only [targetSync, if_true, hp]
    · intro qE s
      rfl
  · intro qE gS bs b tf2 g ch rep u wl wl' h
    unfold updateIteration at h
    cases hs : rep.sample bs ch with
    | error e => rw [hs] at h; cases h
    | ok p =>
        obtain ⟨batch, rep2⟩ := p
        rw [hs] at h
        cases hts : targetSync b tf2 u wl.1 with
        | error e => rw [hts] at h; cases h
        | ok w2 =>
            rw [hts] at h
            simp only [Except.ok.injEq] at h
            obtain ⟨h1, h2⟩ := targetSync_ok_cases b tf2 u wl.1 w2 hts
            rw [← h]
            simpa using h2

/-- Witness for C5 at concrete weights (3, 5) and target frequency 1,
    descent index 0: the sync copies the online weights over. -/
theorem target_snapshot_only_witness :
    targetSync true 1 0 ((3 : Nat), (5 : Nat)) = .ok (3, 3) :=
  ((target_snapshot_only (α := ℚ) (σ := Nat) 1 0 ((3 : Nat), (5 : Nat))
      (by decide) (by decide)).1).1

/-- DeepQNetwork._epsilon (DQN.py lines 272-284):
    self.epsilon_init * np.power(self.epsilon_decay, step / total_steps),
    float arithmetic modelled over the reals with real exponentiation. -/
noncomputable def epsilonAnneal (epsilonInit epsilonDecay : ℝ)
    (step totalSteps : Nat) : ℝ :=
  epsilonInit * epsilonDecay ^ ((step : ℝ) / (totalSteps : ℝ))

/-- Claim C4: the annealing function equals
    epsilon_init * epsilon_decay ^ (step / total_steps); in particular, for
    every N > 0, it equals epsilon_init at step 0 and
    epsilon_init * epsilon_decay at step N of N. -/
theorem epsilon_annealing_formula (ei ed : ℝ) (N : Nat) (hN : 0 < N) :
    (∀ step total : Nat,
        epsilonAnneal ei ed step total
          = ei * ed ^ ((step : ℝ) / (total : ℝ))) ∧
    epsilonAnneal ei ed 0 N = ei ∧
    epsilonAnneal ei ed N N = ei * ed := by
  refine ⟨fun _ _ => rfl, ?_, ?_⟩
  · rw [epsilonAnneal, Nat.cast_zero, zero_div, Real.rpow_zero, mul_one]
  · have hne : (N : ℝ) ≠ 0 := Nat.cast_ne_zero.mpr hN.ne'
    rw [epsilonAnneal, div_self hne, Real.rpow_one]

/-- Witness for C4 at epsilon_init = 1, decay = 1/2, N = 2. -/
theorem epsilon_annealing_formula_witness :
    epsilonAnneal 1 (1/2) 0 2 = 1 :=
  (epsilon_annealing_formula 1 (1/2) 2 (by decide)).2.1

/-- The DeepQNetwork agent state after __init__ (DQN.py lines 94-151): the
    configuration attributes, the current epsilon, the replay buffer, and
    the online and target weights.  In the Python code the target-frequency
    attribute only exists when use_target is set; it is stored
    unconditionally here and — matching the code's short-circuit guard —
    only ever read when useTarget holds. -/
structure AgentState (σ : Type) (W : Type) where
  dims : List Nat
  useTarget : Bool
  targetFrequency : Nat
  epsilonInit : ℝ
  epsilon : ℝ
  epsilonDecay : ℝ
  gamma : ℝ
  memory : Nat
  replay : ExperienceReplay (Experience σ ℝ)
  startUpdating : Nat
  batchSize : Nat
  descentFrequency : Nat
  updateFrequency : Nat
  wOnline : W
  wTarget : W

/-- DeepQNetwork.__init__ (DQN.py lines 94-151): assigns the configuration
    verbatim and performs no range validation of its own; the only
    construction-time check comes from collections.deque(maxlen=memory),
    which raises a ValueError on a negative maxlen.  create_mlp and
    clone_model belong to the external approximator capability; their
    results are the supplied initial online and target weights (clone_model
    yields freshly initialized, not copied, target weights). -/
def dqnInit (dims : List Nat) (epsilon epsilonDecay gamma : ℝ)
    (memory : Int) (startUpdating batchSize : Nat) (learningRate : ℝ)
    (descentFrequency updateFrequency : Nat) (useTarget : Bool)
    (targetFrequency : Nat) (w0 wTarget0 : W) :
    Except DQNError (AgentState σ W) :=
  if memory < 0 then .error .valueError
  else
    .ok
      { dims := dims
        useTarget := useTarget
        targetFrequency := targetFrequency
        epsilonInit := epsilon
        epsilon := epsilon
        epsilonDecay := epsilonDecay
        gamma := gamma
        memory := memory.toNat
        replay := ExperienceReplay.init memory.toNat
        startUpdating := startUpdating
        batchSize := batchSize
        descentFrequency := descentFrequency
        updateFrequency := updateFrequency
        wOnline := w0
        wTarget := wTarget0 }

/-- Claim C7 counterexample: constructing an agent with batch_size = 2
    larger than capacity = 1 succeeds and yields a usable agent state —
    __init__ performs no range check, so no ConfigurationError is raised at
    construction time. -/
theorem init_accepts_invalid_config_counterexample :
    ∃ st : AgentState Nat Unit,
      dqnInit [4, 2] 1 (1/2) (9/10) 1 1 2 (1/100) 1 1 false 1 () ()
        = .ok st ∧
      st.batchSize = 2 ∧ st.replay.capacity = 1 ∧ st.memory = 1 :=
  ⟨_, rfl, rfl, rfl, rfl⟩

/-- Claim C7 (amended): __init__ validates none of the capacity, batch-size
    or frequency parameters; every configuration with a nonnegative capacity
    — including batch_size > capacity and zero frequencies — yields an agent
    carrying the given values verbatim, and the only construction-time
    failure is the deque's ValueError on a negative capacity. -/
theorem init_no_validation (w0 wt0 : W) :
    (∀ (dims : List Nat) (e ed g : ℝ) (memory : Int) (su bs : Nat)
        (lr : ℝ) (df uf : Nat) (ut : Bool) (tfq : Nat),
        0 ≤ memory →
        ∃ st : AgentState σ W,
          dqnInit dims e ed g memory su bs lr df uf ut tfq w0 wt0
            = .ok st ∧
          st.epsilonInit = e ∧ st.epsilon = e ∧ st.epsilonDecay = ed ∧
          st.gamma = g ∧ st.memory = memory.toNat ∧
          st.replay = ExperienceReplay.init memory.toNat ∧
          st.startUpdating = su ∧ st.batchSize = bs ∧
          st.descentFrequency = df ∧ st.updateFrequency = uf ∧
          st.useTarget = ut ∧ st.targetFrequency = tfq) ∧
    (∀ (dims : List Nat) (e ed g : ℝ) (memory : Int) (su bs : Nat)
        (lr : ℝ) (df uf : Nat) (ut : Bool) (tfq : Nat),
        memory < 0 →
        dqnInit (σ := σ) dims e ed g memory su bs lr df uf ut tfq w0 wt0
          = .error .valueError) := by
  constructor
  · intro dims e ed g memory su bs lr df uf ut tfq hm
    refine ⟨{ dims := dims, useTarget := ut, targetFrequency := tfq,
                epsilonInit := e, epsilon := e, epsilonDecay := ed,
                gamma := g, memory := memory.toNat,
                replay := ExperienceReplay.init memory.toNat,
                startUpdating := su, batchSize := bs,
                descentFrequency := df, updateFrequency := uf,
                wOnline := w0, wTarget := wt0 },
      ?_, rfl, rfl, rfl, rfl, rfl, rfl, rfl, rfl, rfl, rfl, rfl, rfl⟩
    rw [dqnInit, if_neg (not_lt.mpr hm)]
  · intro dims e ed g memory su bs lr df uf ut tfq hm
    rw [dqnInit, if_pos hm]

/-- Witness for the amended C7: capacity 1 with batch size 2 is accepted. -/
theorem init_no_validation_witness :
    ∃ st : AgentState Nat Unit,
      dqnInit [2, 2] 1 (1/2) (9/10) 1 5 2 (1/100) 1 1 false 1 () ()
        = .ok st ∧
      st.epsilonInit = 1 ∧ st.epsilon = 1 ∧ st.epsilonDecay = 1/2 ∧
      st.gamma = 9/10 ∧ st.memory = (1 : Int).toNat ∧
      st.replay = ExperienceReplay.init (1 : Int).toNat ∧
      st.startUpdating = 5 ∧ st.batchSize = 2 ∧
      st.descentFrequency = 1 ∧ st.updateFrequency = 1 ∧
      st.useTarget = false ∧ st.targetFrequency = 1 :=
  (init_no_validation () ()).1 [2, 2] 1 (1/2) (9/10) 1 5 2 (1/100) 1 1
    false 1 (by decide)

/-- The persisted artifacts: the approximator checkpoints written by
    q_net.save_weights under a path prefix, and the pickle files; pickling
    a deque round-trips its contents and maxlen exactly, so a pickle file
    holds the replay buffer value itself. -/
structure FileStore (σ : Type) (W : Type) where
  weightFiles : String → Option W
  pickleFiles : String → Option (ExperienceReplay (Experience σ ℝ))

/-- DeepQNetwork.save (DQN.py lines 319-332): write the online weights at
    path and pickle the whole replay buffer at path + 'experience.pk'.
    The agent state itself is unchanged. -/
def dqnSave (st : AgentState σ W) (path : String) (fs : FileStore σ W) :
    FileStore σ W :=
  { weightFiles := fun p =>
      if p = path then some st.wOnline else fs.weightFiles p
    pickleFiles := fun p =>
      if p = path ++ "experience.pk" then some st.replay
      else fs.pickleFiles p }

/-- DeepQNetwork.load (DQN.py lines 334-346): load the online weights from
    path and replace the replay buffer with the one unpickled from
    path + 'experience.pk'; a missing file raises. -/
def dqnLoad (st : AgentState σ W) (path : String) (fs : FileStore σ W) :
    Except DQNError (AgentState σ W) :=
  match fs.weightFiles path with
  | none => .error .fileNotFound
  | some w =>
      match fs.pickleFiles (path ++ "experience.pk") with
      | none => .error .fileNotFound
      | some rep => .ok { st with wOnline := w, replay := rep }

/-- DeepQNetwork.clear_experience (DQN.py lines 348-352): replace the
    replay buffer with a fresh empty one of the configured capacity. -/
def clearExperience (st : AgentState σ W) : AgentState σ W :=
  { st with replay := ExperienceReplay.init st.memory }

/-- Claim C9: for every agent state, save(p); clear_experience(); load(p)
    restores a replay buffer whose length and contents — all transitions in
    order, and the capacity too — are identical to the replay buffer
    immediately before save(p). -/
theorem save_clear_load_roundtrip (st : AgentState σ W) (path : String)
    (fs : FileStore σ W) :
    ∃ st' : AgentState σ W,
      dqnLoad (clearExperience st) path (dqnSave st path fs) = .ok st' ∧
      st'.replay = st.replay ∧ st'.replay.len = st.replay.len := by
  have h1 : (dqnSave st path fs).weightFiles path = some st.wOnline := by
    simp [dqnSave]
  have h2 : (dqnSave st path fs).pickleFiles (path ++ "experience.pk")
      = some st.replay := by
    simp [dqnSave]
  refine ⟨{ clearExperience st with
              wOnline := st.wOnline
              replay := st.replay },
    ?_, rfl, rfl⟩
  unfold dqnLoad
  rw [h1]
  dsimp only
  rw [h2]

/-- One episode of DeepQNetwork.train (DQN.py lines 301-317): anneal
    epsilon, compute the render flag episode % render_frequency == 0 (a
    ZeroDivisionError when that frequency is 0), run simulate — the gym
    environment is external, so the transitions an episode appends to the
    replay buffer are the given per-episode trace — and, when the buffer has
    reached start_updating and episode % update_frequency == 0 (Python's
    `and` short-circuits), run _update_weights with self.gamma. -/
noncomputable def trainStep (qEval : W → σ → List ℝ)
    (gradStep : W → List (Experience σ ℝ) → List ℝ → W)
    (choices : Nat → Nat → Nat → List Nat)
    (traces : Nat → List (Experience σ ℝ))
    (episodes renderFrequency : Nat)
    (st : AgentState σ W) (episode : Nat) :
    Except DQNError (AgentState σ W) :=
  let st1 :=
    { st with
        epsilon :=
          epsilonAnneal st.epsilonInit st.epsilonDecay episode episodes }
  match pymod episode renderFrequency with
  | .error e => .error e
  | .ok _ =>
      let st2 :=
        { st1 with
            replay :=
              (traces episode).foldl ExperienceReplay.append st1.replay }
      if st2.startUpdating ≤ st2.replay.len then
        match pymod episode st2.updateFrequency with
        | .error e => .error e
        | .ok m =>
            if m = 0 then
              match updateWeights qEval gradStep st2.batchSize st2.useTarget
                  st2.targetFrequency st2.gamma choices st2.replay
                  st2.descentFrequency (st2.wOnline, st2.wTarget) with
              | .error e => .error e
              | .ok wl =>
                  .ok { st2 with wOnline := wl.1.1, wTarget := wl.1.2 }
            else .ok st2
      else .ok st2

/-- DeepQNetwork.train (DQN.py lines 286-317): fold the episode step over
    the episode indices 0, 1, ..., episodes - 1. -/
noncomputable def train (qEval : W → σ → List ℝ)
    (gradStep : W → List (Experience σ ℝ) → List ℝ → W)
    (choices : Nat → Nat → Nat → List Nat)
    (traces : Nat → List (Experience σ ℝ))
    (episodes renderFrequency : Nat) (st0 : AgentState σ W) :
    Except DQNError (AgentState σ W) :=
  (List.range episodes).foldlM
    (trainStep qEval gradStep choices traces episodes renderFrequency) st0

/-- Every successful episode step carries the annealed epsilon of that
    episode, whichever branch it took. -/
lemma trainStep_ok_epsilon (qE : W → σ → List ℝ)
    (gS : W → List (Experience σ ℝ) → List ℝ → W)
    (ch : Nat → Nat → Nat → List Nat) (tr : Nat → List (Experience σ ℝ))
    (episodes rf : Nat) (st st' : AgentState σ W) (ep : Nat)
    (h : trainStep qE gS ch tr episodes rf st ep = .ok st') :
    st'.epsilon = epsilonAnneal st.epsilonInit st.epsilonDecay ep episodes := by
  unfold trainStep at h
  split at h
  · cases h
  · dsimp only at h
    split at h
    · split at h
      · cases h
      · split at h
        · split at h
          · cases h
          · simp only [Except.ok.injEq] at h
            subst h
            rfl
        · simp only [Except.ok.injEq] at h
          subst h
          rfl
    · simp only [Except.ok.injEq] at h
      subst h
      rfl

/-- The annealing value stays within [0, epsilon_init] whenever
    epsilon_init is nonnegative and the decay lies in [0, 1]. -/
lemma epsilonAnneal_bounds (ei ed : ℝ) (hei : 0 ≤ ei) (hd0 : 0 ≤ ed)
    (hd1 : ed ≤ 1) (step total : Nat) :
    0 ≤ epsilonAnneal ei ed step total ∧
      epsilonAnneal ei ed step total ≤ ei := by
  unfold epsilonAnneal
  have he : (0 : ℝ) ≤ (step : ℝ) / (total : ℝ) :=
    div_nonneg (Nat.cast_nonneg _) (Nat.cast_nonneg _)
  constructor
  · exact mul_nonneg hei (Real.rpow_nonneg hd0 _)
  · have h1 : ed ^ ((step : ℝ) / (total : ℝ)) ≤ 1 :=
      Real.rpow_le_one hd0 hd1 he
    calc ei * ed ^ ((step : ℝ) / (total : ℝ))
        ≤ ei * 1 := mul_le_mul_of_nonneg_left h1 hei
      _ = ei := mul_one ei

/-- Claim C8: with epsilon_init ≥ 0 and a decay in [0, 1] — the documented
    roles: epsilon is a probability, epsilon_decay the final fraction — the
    invariant 0 ≤ epsilon ≤ epsilon_init holds at construction and is
    preserved by the annealing values, in particular by the per-episode
    reassignment epsilon = _epsilon(episode, episodes) performed in train. -/
theorem epsilon_invariant (ei ed : ℝ) (hei : 0 ≤ ei) (hd0 : 0 ≤ ed)
    (hd1 : ed ≤ 1) :
    (∀ step total : Nat,
        0 ≤ epsilonAnneal ei ed step total ∧
        epsilonAnneal ei ed step total ≤ ei) ∧
    (∀ (dims : List Nat) (g : ℝ) (memory : Int) (su bs : Nat) (lr : ℝ)
        (df uf : Nat) (ut : Bool) (tfq : Nat) (w0 wt0 : W)
        (st : AgentState σ W),
        dqnInit dims ei ed g memory su bs lr df uf ut tfq w0 wt0 = .ok st →
        st.epsilon = ei ∧ 0 ≤ st.epsilon ∧ st.epsilon ≤ st.epsilonInit) ∧
    (∀ (qE : W → σ → List ℝ) (gS : W → List (Experience σ ℝ) → List ℝ → W)
        (ch : Nat → Nat → Nat → List Nat)
        (tr : Nat → List (Experience σ ℝ))
        (episodes rf ep : Nat) (st st' : AgentState σ W),
        st.epsilonInit = ei → st.epsilonDecay = ed →
        trainStep qE gS ch tr episodes rf st ep = .ok st' →
        st'.epsilon = epsilonAnneal ei ed ep episodes ∧
        0 ≤ st'.epsilon ∧ st'.epsilon ≤ st.epsilonInit) := by
  refine ⟨fun s t => epsilonAnneal_bounds ei ed hei hd0 hd1 s t, ?_, ?_⟩
  · intro dims g memory su bs lr df uf ut tfq w0 wt0 st h
    unfold dqnInit at h
    split at h
    · cases h
    · simp only [Except.ok.injEq] at h
      subst h
      exact ⟨rfl, hei, le_refl _⟩
  · intro qE gS ch tr episodes rf ep st st' h1 h2 h
    have he := trainStep_ok_epsilon qE gS ch tr episodes rf st st' ep h
    rw [h1, h2] at he
    have hb := epsilonAnneal_bounds ei ed hei hd0 hd1 ep episodes
    refine ⟨he, ?_, ?_⟩
    · rw [he]
      exact hb.1
    · rw [he, h1]
      exact hb.2

/-- Witness for C8 at epsilon_init = 1, decay = 1/2, episode 1 of 2. -/
theorem epsilon_invariant_witness :
    0 ≤ epsilonAnneal 1 (1/2) 1 2 ∧ epsilonAnneal 1 (1/2) 1 2 ≤ 1 :=
  (epsilon_invariant (σ := Nat) (W := Unit) 1 (1/2) (by norm_num)
      (by norm_num) (by norm_num)).1 1 2

/-- Sampling succeeds whenever the draw honours numpy's contract and
    1 ≤ batch size ≤ buffer length, returning the buffer unchanged. -/
lemma sample_isOk (rep : ExperienceReplay E) (k : Nat)
    (choice : Nat → Nat → List Nat) (hc : ChoiceContract choice)
    (h1 : 1 ≤ k) (hk : k ≤ rep.buffer.length) :
    ∃ recs : List E, rep.sample k choice = .ok (recs, rep) := by
  obtain ⟨hlen, hnd, hrange⟩ := hc rep.buffer.length k hk
  obtain ⟨recs, hrecs, hrlen, hrget⟩ := gatherE_ok rep.buffer _ hrange
  have hne : recs.isEmpty = false := by
    cases recs with
    | nil =>
        rw [hlen] at hrlen
        simp only [List.length_nil] at hrlen
        omega
    | cons a as => rfl
  have hch : npChoiceNoReplace choice rep.buffer.length k
      = .ok (choice rep.buffer.length k) := by
    rw [npChoiceNoReplace, if_neg (Nat.not_lt.mpr hk)]
  refine ⟨recs, ?_⟩
  simp only [ExperienceReplay.sample, hch, hrecs, hne]
  rfl

/-- A concrete Nat-state, Unit-weight agent for the train-loop results:
    capacity 5, start_updating 10, update_frequency 0. -/
def smallAgent : AgentState Nat Unit :=
  { dims := [2, 2]
    useTarget := false
    targetFrequency := 1
    epsilonInit := 1
    epsilon := 1
    epsilonDecay := 1
    gamma := 1
    memory := 5
    replay := ExperienceReplay.init 5
    startUpdating := 10
    batchSize := 1
    descentFrequency := 1
    updateFrequency := 0
    wOnline := ()
    wTarget := () }

/-- Claim C10 counterexample: train with update_frequency = 0 (and
    render_frequency = 1) completes its first — and only — episode without
    raising, because the buffer (one record appended, start_updating = 10)
    stays below the update gate and Python's short-circuit `and` never
    evaluates episode % update_frequency. -/
theorem train_zero_update_freq_counterexample :
    ∃ st' : AgentState Nat Unit,
      train (fun _ _ => [(1 : ℝ)]) (fun w _ _ => w)
        (fun _ n k => (List.range n).take k)
        (fun _ => [⟨0, 0, 1, false, 0⟩]) 1 1 smallAgent = .ok st' ∧
      st'.replay.len = 1 := by
  refine ⟨{ smallAgent with
              epsilon := epsilonAnneal 1 1 0 1
              replay := ⟨5, [⟨0, 0, 1, false, 0⟩]⟩ }, ?_, rfl⟩
  rfl

/-- Claim C10 (amended): zero frequency parameters are accepted at
    construction; train with render_frequency = 0 raises ZeroDivisionError
    during its first episode; train with update_frequency = 0 raises in an
    episode exactly when the post-simulation buffer has reached
    start_updating — an episode below that threshold completes, because the
    `and` short-circuits before the modulo — and _update_weights with
    use_target and target_frequency = 0 raises on its first descent
    iteration. -/
theorem zero_frequency_behavior (qE : W → σ → List ℝ)
    (gS : W → List (Experience σ ℝ) → List ℝ → W)
    (choices : Nat → Nat → Nat → List Nat)
    (traces : Nat → List (Experience σ ℝ)) :
    (∀ (dims : List Nat) (e ed g : ℝ) (memory : Int) (su bs : Nat)
        (lr : ℝ) (df : Nat) (ut : Bool) (w0 wt0 : W),
        0 ≤ memory →
        ∃ st : AgentState σ W,
          dqnInit dims e ed g memory su bs lr df 0 ut 0 w0 wt0 = .ok st) ∧
    (∀ (episodes : Nat) (st : AgentState σ W), 1 ≤ episodes →
        train qE gS choices traces episodes 0 st = .error .zeroDivision) ∧
    (∀ (episodes rf ep : Nat) (st : AgentState σ W), rf ≠ 0 →
        st.updateFrequency = 0 →
        (st.startUpdating
            ≤ ((traces ep).foldl ExperienceReplay.append st.replay).len →
          trainStep qE gS choices traces episodes rf st ep
            = .error .zeroDivision) ∧
        (((traces ep).foldl ExperienceReplay.append st.replay).len
            < st.startUpdating →
          ∃ st', trainStep qE gS choices traces episodes rf st ep
            = .ok st')) ∧
    (∀ (g : ℝ) (batchSize : Nat) (rep : ExperienceReplay (Experience σ ℝ))
        (descentFrequency : Nat) (w0 : W × W),
        ChoiceContract (choices 0) → 1 ≤ batchSize →
        batchSize ≤ rep.buffer.length → 1 ≤ descentFrequency →
        updateWeights qE gS batchSize true 0 g choices rep
          descentFrequency w0 = .error .zeroDivision) := by
  refine ⟨?_, ?_, ?_, ?_⟩
  · intro dims e ed g memory su bs lr df ut w0 wt0 hm
    refine ⟨{ dims := dims, useTarget := ut, targetFrequency := 0,
                epsilonInit := e, epsilon := e, epsilonDecay := ed,
                gamma := g, memory := memory.toNat,
                replay := ExperienceReplay.init memory.toNat,
                startUpdating := su, batchSize := bs,
                descentFrequency := df, updateFrequency := 0,
                wOnline := w0, wTarget := wt0 }, ?_⟩
    rw [dqnInit, if_neg (not_lt.mpr hm)]
  · intro episodes st h1
    cases episodes with
    | zero => exact absurd h1 (by omega)
    | succ n =>
        have hstep : trainStep qE gS choices traces (n + 1) 0 st 0
            = .error .zeroDivision := rfl
        unfold train
        rw [List.range_succ_eq_map, List.foldlM_cons, hstep]
        rfl
  · intro episodes rf ep st hrf huf
    have hp : pymod ep rf = .ok (ep % rf) := by
      rw [pymod, if_neg hrf]
    constructor
    · intro hge
      unfold trainStep
      rw [hp]
      dsimp only
      rw [if_pos hge, huf]
      have hp0 : pymod ep 0 = .error .zeroDivision := by
        rw [pymod, if_pos rfl]
      rw [hp0]
    · intro hlt
      refine ⟨{ st with
                  epsilon := epsilonAnneal st.epsilonInit st.epsilonDecay
                    ep episodes
                  replay :=
                    (traces ep).foldl ExperienceReplay.append st.replay },
        ?_⟩
      unfold trainStep
      rw [hp]
      dsimp only
      rw [if_neg (not_le.mpr hlt)]
  · intro g batchSize rep descentFrequency w0 hc h1 hbs hdf
    obtain ⟨recs, hs⟩ := sample_isOk rep batchSize (choices 0) hc h1 hbs
    have hiter : updateIteration qE gS batchSize true 0 g (choices 0) rep 0
        (w0, 0) = .error .zeroDivision := by
      unfold updateIteration
      rw [hs]
      rfl
    cases descentFrequency with
    | zero => exact absurd hdf (by omega)
    | succ n =>
        unfold updateWeights
        rw [List.range_succ_eq_map, List.foldlM_cons]
        simp only [hiter]
        rfl

/-- Witness for the amended C10: a one-episode training run with
    render_frequency = 0 fails with the ZeroDivisionError. -/
theorem zero_frequency_behavior_witness :
    train (fun (_ : Unit) (_ : Nat) => [(1 : ℝ)]) (fun w _ _ => w)
      (fun _ n k => (List.range n).take k) (fun _ => []) 1 0 smallAgent
      = .error .zeroDivision :=
  (zero_frequency_behavior (fun (_ : Unit) (_ : Nat) => [(1 : ℝ)])
      (fun w _ _ => w) (fun _ n k => (List.range n).take k)
      (fun _ => [])).2.1 1 smallAgent (by decide)
